import Mathlib

/-!
A shallow embedding of `src/wiki.go` (a minimal file-backed wiki server).

Modelling conventions:
* The filesystem is an explicit value `FS`: a set of existing directories,
  an association list from file path to byte content, and a set of paths
  whose access fails with a permission error (the source of `StorageError`s
  other than a missing file).
* Bytes are modelled as `List Nat`; `[]byte(s)` for a Go string `s` is
  `strBytes s` (the UTF-8 bytes of `s`).
* `os.Getenv("STORAGE_PATH")` is a constant during a run; it is passed to
  every operation as the explicit parameter `env`.
* The `net/http` response writer is `RW`: an optional status code (set by
  the first write or explicit header write, later writes cannot change it),
  an accumulated body, and an optional `Location` header.
* Go `error` results are `Except FsError`; `err.Error()` is `FsError.message`.
* Templates are opaque values: a parsed template is a function from a
  payload to the output it wrote and an optional error (the output is what
  was produced before the error, mirroring `text/template.Execute`).
* The `http.ServeMux` built in `main` is modelled as longest-matching-
  pattern dispatch over the five registered patterns.  The mux's canonical-
  path 301 redirection is not modelled: requests reach the registered
  handler with their path as given, where `validPath` decides everything.
-/

/-- Error kinds a repository operation can produce, mirroring the two ways
`os.ReadFile` / `os.Remove` fail: the file does not exist, or some other
I/O failure (permissions, disk).  -/
inductive FsError where
  | notFound
  | storageError
deriving DecidableEq

/-- Go `err.Error()` text for the two modelled error kinds. -/
def FsError.message : FsError → String
  | .notFound => "no such file or directory"
  | .storageError => "permission denied"

/-- Filesystem state: existing directories, files (path to byte content),
and paths whose access fails with a permission error. -/
structure FS where
  dirs : List String
  files : List (String × List Nat)
  denied : List String
deriving DecidableEq

/-- Association-list lookup keyed by the first component. -/
def assocLookup {α : Type} : List (String × α) → String → Option α
  | [], _ => none
  | (k, v) :: rest, key => if k = key then some v else assocLookup rest key

/-- UTF-8 encoding of a single code point. -/
def utf8Bytes (n : Nat) : List Nat :=
  if n < 0x80 then [n]
  else if n < 0x800 then [0xC0 ||| (n >>> 6), 0x80 ||| (n &&& 0x3F)]
  else if n < 0x10000 then
    [0xE0 ||| (n >>> 12), 0x80 ||| ((n >>> 6) &&& 0x3F), 0x80 ||| (n &&& 0x3F)]
  else
    [0xF0 ||| (n >>> 18), 0x80 ||| ((n >>> 12) &&& 0x3F),
      0x80 ||| ((n >>> 6) &&& 0x3F), 0x80 ||| (n &&& 0x3F)]

/-- Bytes of a Go string (UTF-8), as used by the `[]byte(body)` conversion
in `saveHandler`. -/
def strBytes (s : String) : List Nat := (s.data.map (fun c => utf8Bytes c.toNat)).flatten

/-- Model of `os.ReadFile`: a denied path fails with a permission error, a
present path yields its bytes, a missing path fails with not-exist. -/
def readFile (fs : FS) (path : String) : Except FsError (List Nat) :=
  if path ∈ fs.denied then .error .storageError
  else match assocLookup fs.files path with
    | some b => .ok b
    | none => .error .notFound

/-- Model of `os.WriteFile`: a denied path fails with a permission error;
otherwise the file is created or wholly replaced. -/
def writeFile (fs : FS) (path : String) (b : List Nat) : Except FsError FS :=
  if path ∈ fs.denied then .error .storageError
  else .ok { fs with files := (path, b) :: fs.files.filter (fun kv => kv.1 ≠ path) }

/-- Model of `os.Remove` on a file: a denied path fails with a permission
error, a present path is removed, a missing path fails with not-exist. -/
def removeFile (fs : FS) (path : String) : Except FsError FS :=
  if path ∈ fs.denied then .error .storageError
  else match assocLookup fs.files path with
    | some _ => .ok { fs with files := fs.files.filter (fun kv => kv.1 ≠ path) }
    | none => .error .notFound

/-- Model of the `os.Stat` / `os.IsNotExist` / `os.Mkdir` sequence that
`save` and `delete` both run on the storage root (wiki.go lines 160-165 and
173-178): create the root directory when it does not exist. -/
def statMkdirRoot (fs : FS) (env : String) : FS :=
  if env ∈ fs.dirs then fs else { fs with dirs := env :: fs.dirs }

/-- The storage path every repository operation derives from a title:
`<storage-root>/<title>.txt` (inlined three times in wiki.go). -/
def storagePath (env title : String) : String := env ++ "/" ++ title ++ ".txt"

/-- In-memory page: `pageModel` of wiki.go. -/
structure pageModel where
  Title : String
  Body : List Nat
deriving DecidableEq

/-- `(p *pageModel) save()` of wiki.go: derive the filename, create the
storage root if absent, then write the whole body. -/
def pageModel.save (env : String) (p : pageModel) (fs : FS) : Except FsError FS :=
  let filename := env ++ "/" ++ p.Title ++ ".txt"
  let fs1 := statMkdirRoot fs env
  writeFile fs1 filename p.Body

/-- `(p *pageModel) delete()` of wiki.go: derive the filename, create the
storage root if absent, then remove the file. -/
def pageModel.delete (env : String) (p : pageModel) (fs : FS) : Except FsError FS :=
  let filename := env ++ "/" ++ p.Title ++ ".txt"
  let fs1 := statMkdirRoot fs env
  removeFile fs1 filename

/-- `loadPage` of wiki.go: read the file at the derived path; on success
the page carries the requested title and the bytes read. -/
def loadPage (env : String) (param : String) (fs : FS) : Except FsError pageModel :=
  let fn := env ++ "/" ++ param ++ ".txt"
  match readFile fs fn with
  | .error e => .error e
  | .ok body => .ok { Title := param, Body := body }

/-- Character class `[a-zA-Z0-9]` of the `validPath` regular expression. -/
def isAlnumGo (c : Char) : Bool :=
  ('a' ≤ c && c ≤ 'z') || ('A' ≤ c && c ≤ 'Z') || ('0' ≤ c && c ≤ '9')

/-- A string entirely inside `[a-zA-Z0-9]`. -/
def isAlnumStr (s : String) : Bool := s.data.all isAlnumGo

/-- Split a character list at its first slash, if any. -/
def splitFirstSlash : List Char → Option (List Char × List Char)
  | [] => none
  | c :: rest =>
      if c = '/' then some ([], rest)
      else (splitFirstSlash rest).map (fun p => (c :: p.1, p.2))

/-- `validPath.FindStringSubmatch` for the anchored regular expression
`(?:/|/(view|edit|save|delete)/([a-zA-Z0-9]+))` of wiki.go line 29: `none`
when the path does not match, otherwise `some (m1, m2)` holding capture
groups 1 and 2 (both empty for the root path). -/
def validPathMatch (s : String) : Option (String × String) :=
  match splitFirstSlash s.data with
  | some ([], rest) =>
      if rest = [] then some ("", "")
      else
        match splitFirstSlash rest with
        | some (opCs, idCs) =>
            let op : String := ⟨opCs⟩
            let id : String := ⟨idCs⟩
            if (op = "view" || op = "edit" || op = "save" || op = "delete")
                && idCs ≠ [] && idCs.all isAlnumGo
            then some (op, id) else none
        | none => none
  | _ => none

/-- HTTP response writer state.  `status` is set by the first header write
or body write and never changed afterwards (net/http ignores a second
`WriteHeader`). -/
structure RW where
  status : Option Nat
  body : String
  location : Option String
deriving DecidableEq

/-- A response writer before anything was written. -/
def RW.fresh : RW := { status := none, body := "", location := none }

/-- `w.Write`: the first body write commits status 200 when no header was
written yet; the bytes are appended. -/
def RW.write (w : RW) (s : String) : RW :=
  { w with status := some (w.status.getD 200), body := w.body ++ s }

/-- `w.WriteHeader`: sets the status unless one is already committed. -/
def RW.writeHeader (w : RW) (code : Nat) : RW :=
  { w with status := some (w.status.getD code) }

/-- `http.Error(w, msg, code)`: write the header, then the message and a
newline as plain text. -/
def httpError (w : RW) (msg : String) (code : Nat) : RW :=
  (w.writeHeader code).write (msg ++ "\n")

/-- `http.Redirect(w, r, url, code)`: set the `Location` header and write
the status code.  (The small HTML body net/http adds for GET requests is
not modelled.) -/
def httpRedirect (w : RW) (url : String) (code : Nat) : RW :=
  { w.writeHeader code with location := some url }

/-- `http.NotFound(w, r)`. -/
def httpNotFound (w : RW) : RW :=
  httpError w "404 page not found" 404

/-- An HTTP request as the handlers observe it: method, URL path, URL query
parameters, and the parameters of a url-encoded request body. -/
structure Request where
  method : String
  path : String
  query : List (String × String)
  formBody : List (String × String)
deriving DecidableEq

/-- `r.FormValue(key)` of net/http: the request body's form fields are
parsed only for POST, PUT and PATCH requests; body fields take precedence
over URL query fields; a missing key yields the empty string. -/
def Request.formValue (r : Request) (key : String) : String :=
  let vals :=
    (if r.method = "POST" || r.method = "PUT" || r.method = "PATCH"
      then r.formBody else []) ++ r.query
  (assocLookup vals key).getD ""

/-- Payload handed to a parsed template: either a `pageData.Content` value
(for a content template) or the title/content pair for the base layout. -/
inductive TemplatePayload where
  | page (p : pageModel)
  | index (items : List String)
  | base (title : String) (html : String)

/-- A parsed Go template: executing it on a payload yields the output it
wrote and an optional error (the output is what was produced before the
error occurred). -/
structure GoTemplate where
  run : TemplatePayload → String × Option String

/-- Content part of a `pageData` value (its `Content interface{}` field). -/
inductive ContentVal where
  | page (p : pageModel)
  | index (items : List String)

/-- `pageData` of wiki.go. -/
structure pageData where
  Title : String
  Content : ContentVal

/-- Payload passed when a content template is executed on `pageData.Content`. -/
def ContentVal.payload : ContentVal → TemplatePayload
  | .page p => .page p
  | .index items => .index items

/-- `renderTemplate` of wiki.go: look up the base and the named content
template; execute the content template into an intermediate buffer; only
when that succeeds, execute the base layout (same template as the looked-up
`base.html`) directly to the response writer with the buffered content. -/
def renderTemplate (tpls : List (String × GoTemplate)) (w : RW)
    (pd : pageData) (tmpl : String) : RW :=
  match assocLookup tpls "base.html", assocLookup tpls (tmpl ++ ".html") with
  | some baseTmpl, some contentTmpl =>
      match contentTmpl.run pd.Content.payload with
      | (_, some e) => httpError w e 500
      | (contentBuf, none) =>
          match baseTmpl.run (.base pd.Title contentBuf) with
          | (out, some e) => httpError (if out = "" then w else w.write out) e 500
          | (out, none) => if out = "" then w else w.write out
  | _, _ => httpError w "Not found base or content template" 500

/-- Trim a leading occurrence, mirroring Go `strings.TrimPrefix`: when the
string starts with `pre` drop it, otherwise return the string unchanged. -/
def trimLeading (s pre : String) : String :=
  if pre.data.isPrefixOf s.data then ⟨s.data.drop pre.data.length⟩ else s

/-- Go `strings.TrimSuffix`: when the string ends with `suf` drop it,
otherwise return the string unchanged. -/
def trimSuffix (s suf : String) : String :=
  if suf.data.reverse.isPrefixOf s.data.reverse
  then ⟨(s.data.reverse.drop suf.data.length).reverse⟩ else s

/-- Whether a stored file path matches the glob pattern
`filepath.Join(env, "*.txt")` used by `indexHandler`: it lies directly in
the storage root (no further separator) and carries the `.txt` suffix. -/
def globMatchTxt (env : String) (p : String) : Bool :=
  let pre := (env ++ "/").data
  pre.isPrefixOf p.data
    && (let rest := p.data.drop pre.length
        rest.all (fun c => c ≠ '/') && ".txt".data.reverse.isPrefixOf rest.reverse)

/-- Model of `filepath.Glob` on the pattern `<env>/*.txt`: the matching
file paths currently on disk.  `Glob` only errors on a malformed pattern,
which this fixed pattern shape never is, so the result is always `ok`.
(Glob sorts its result; the claims leave the order unconstrained, so the
model keeps the enumeration order of the file list.) -/
def filepathGlob (fs : FS) (env : String) : Except String (List String) :=
  .ok ((fs.files.map (fun kv => kv.1)).filter (globMatchTxt env))

/-- Lines 34-43 of wiki.go as a repository-level operation: enumerate
`<env>/*.txt` and strip the directory and the extension from each hit. -/
def listTitles (fs : FS) (env : String) : Except String (List String) :=
  match filepathGlob fs env with
  | .error e => .error e
  | .ok files =>
      .ok (files.map (fun file => trimSuffix (trimLeading file (env ++ "/")) ".txt"))

/-- `indexHandler` of wiki.go: glob the storage root, strip directory and
extension, render the `index` content template over the titles. -/
def indexHandler (tpls : List (String × GoTemplate)) (env : String)
    (w : RW) (r : Request) (param : String) (fs : FS) : RW × FS :=
  match listTitles fs env with
  | .error e => (httpError w e 500, fs)
  | .ok files =>
      (renderTemplate tpls w { Title := "All Pages", Content := .index files } "index", fs)

/-- `viewHandler` of wiki.go: any `loadPage` failure redirects (302) to the
edit path for the same identifier; success renders the `view` template. -/
def viewHandler (tpls : List (String × GoTemplate)) (env : String)
    (w : RW) (r : Request) (param : String) (fs : FS) : RW × FS :=
  match loadPage env param fs with
  | .error _ => (httpRedirect w ("/edit/" ++ param) 302, fs)
  | .ok p =>
      (renderTemplate tpls w { Title := "View " ++ param, Content := .page p } "view", fs)

/-- `saveHandler` of wiki.go: build the page from the request form fields
`body` and `title` (the URL identifier `param` is not consulted), save it,
and redirect to `/view/<form title>`; a save failure is a 500. -/
def saveHandler (tpls : List (String × GoTemplate)) (env : String)
    (w : RW) (r : Request) (param : String) (fs : FS) : RW × FS :=
  let body := r.formValue "body"
  let title := r.formValue "title"
  let p : pageModel := { Title := title, Body := strBytes body }
  match p.save env fs with
  | .error e => (httpError w e.message 500, fs)
  | .ok fs1 => (httpRedirect w ("/view/" ++ title) 302, fs1)

/-- `deleteHandler` of wiki.go: load the page first (a load failure is a
500), delete it (a delete failure is a 500), then redirect to `/`. -/
def deleteHandler (tpls : List (String × GoTemplate)) (env : String)
    (w : RW) (r : Request) (param : String) (fs : FS) : RW × FS :=
  match loadPage env param fs with
  | .error e => (httpError w e.message 500, fs)
  | .ok p =>
      match p.delete env fs with
      | .error e => (httpError w e.message 500, fs)
      | .ok fs1 => (httpRedirect w "/" 302, fs1)

/-- `editHandler` of wiki.go: a load failure degrades to a blank page with
the requested title; then render the `edit` template. -/
def editHandler (tpls : List (String × GoTemplate)) (env : String)
    (w : RW) (r : Request) (param : String) (fs : FS) : RW × FS :=
  let p := match loadPage env param fs with
    | .error _ => { Title := param, Body := [] : pageModel }
    | .ok p => p
  (renderTemplate tpls w { Title := "Edit " ++ param, Content := .page p } "edit", fs)

/-- `makeHandler` of wiki.go: run `validPath` over the request path; no
match is a 404 and the wrapped handler never runs; on a match the wrapped
handler receives capture group 2. -/
def makeHandler (fn : RW → Request → String → FS → RW × FS)
    (w : RW) (r : Request) (fs : FS) : RW × FS :=
  match validPathMatch r.path with
  | none => (httpNotFound w, fs)
  | some m => fn w r m.2 fs

/-- `main`'s route table: the `http.ServeMux` with the five registered
patterns `/`, `/view/`, `/edit/`, `/save/`, `/delete/`, dispatched by
longest matching pattern; every entry wraps its handler in `makeHandler`.
Each request starts from a fresh response writer. -/
def serveMux (tpls : List (String × GoTemplate)) (env : String)
    (r : Request) (fs : FS) : RW × FS :=
  if "/view/".data.isPrefixOf r.path.data then
    makeHandler (viewHandler tpls env) RW.fresh r fs
  else if "/edit/".data.isPrefixOf r.path.data then
    makeHandler (editHandler tpls env) RW.fresh r fs
  else if "/save/".data.isPrefixOf r.path.data then
    makeHandler (saveHandler tpls env) RW.fresh r fs
  else if "/delete/".data.isPrefixOf r.path.data then
    makeHandler (deleteHandler tpls env) RW.fresh r fs
  else
    makeHandler (indexHandler tpls env) RW.fresh r fs

/-! Helper lemmas about the embedded operations. -/

theorem assocLookup_cons_self {α : Type} (rest : List (String × α)) (p : String) (b : α) :
    assocLookup ((p, b) :: rest) p = some b := by
  simp [assocLookup]

theorem assocLookup_filter_self {α : Type} (files : List (String × α)) (p : String) :
    assocLookup (files.filter (fun kv => kv.1 ≠ p)) p = none := by
  induction files with
  | nil => rfl
  | cons kv rest ih =>
      obtain ⟨k, v⟩ := kv
      rw [List.filter_cons]
      split
      · rename_i hcond
        have hne : k ≠ p := by simpa using hcond
        simp only [assocLookup]
        rw [if_neg hne]
        exact ih
      · exact ih

theorem assocLookup_filter_other {α : Type} (files : List (String × α)) (p q : String)
    (hne : q ≠ p) :
    assocLookup (files.filter (fun kv => kv.1 ≠ p)) q = assocLookup files q := by
  induction files with
  | nil => rfl
  | cons kv rest ih =>
      obtain ⟨k, v⟩ := kv
      rw [List.filter_cons]
      split
      · simp only [assocLookup]
        by_cases hk : k = q
        · rw [if_pos hk, if_pos hk]
        · rw [if_neg hk, if_neg hk]
          exact ih
      · rename_i hcond
        have hp : k = p := by
          by_contra hc
          simp [hc] at hcond
        have hkq : k ≠ q := by
          rw [hp]
          exact fun hh => hne hh.symm
        simp only [assocLookup]
        rw [if_neg hkq]
        exact ih

theorem storagePath_data (env t : String) :
    (storagePath env t).data = env.data ++ '/' :: (t.data ++ ['.', 't', 'x', 't']) := by
  show (env ++ "/" ++ t ++ ".txt").data = _
  simp [String.data_append]

theorem storagePath_inj (env t₁ t₂ : String)
    (h : storagePath env t₁ = storagePath env t₂) : t₁ = t₂ := by
  have hd : (storagePath env t₁).data = (storagePath env t₂).data := by rw [h]
  rw [storagePath_data, storagePath_data] at hd
  have h1 := List.append_cancel_left hd
  have h2 := List.cons.inj h1
  have h3 := List.append_cancel_right h2.2
  exact String.ext h3

theorem isPrefixOf_append_self (l₁ l₂ : List Char) : l₁.isPrefixOf (l₁ ++ l₂) = true := by
  rw [List.isPrefixOf_iff_prefix]
  exact List.prefix_append _ _

theorem trimLeading_append (pre s : String) : trimLeading (pre ++ s) pre = s := by
  unfold trimLeading
  rw [String.data_append, isPrefixOf_append_self]
  simp [List.drop_left]

theorem trimSuffix_append (s suf : String) : trimSuffix (s ++ suf) suf = s := by
  unfold trimSuffix
  rw [String.data_append, List.reverse_append, isPrefixOf_append_self]
  rw [if_pos rfl]
  have hl : suf.data.length = suf.data.reverse.length := (List.length_reverse _).symm
  rw [hl, List.drop_left, List.reverse_reverse]

theorem isAlnumGo_ne_slash (c : Char) (h : isAlnumGo c = true) : c ≠ '/' := by
  intro hc
  subst hc
  simp [isAlnumGo] at h

theorem globMatchTxt_storagePath (env t : String) (h : isAlnumStr t = true) :
    globMatchTxt env (storagePath env t) = true := by
  have hdata : (storagePath env t).data = (env ++ "/").data ++ (t.data ++ ".txt".data) := by
    rw [storagePath_data, String.data_append]
    simp
  unfold globMatchTxt
  rw [hdata]
  simp only [isPrefixOf_append_self, List.drop_left, Bool.true_and, Bool.and_eq_true]
  constructor
  · rw [List.all_eq_true]
    intro c hc
    rcases List.mem_append.mp hc with hct | hcs
    · have hcs' : isAlnumGo c = true := by
        unfold isAlnumStr at h
        exact List.all_eq_true.mp h c hct
      simpa using isAlnumGo_ne_slash c hcs'
    · fin_cases hcs <;> decide
  · rw [List.reverse_append]
    exact isPrefixOf_append_self _ _

theorem splitFirstSlash_append (a b : List Char) (h : '/' ∉ a) :
    splitFirstSlash (a ++ '/' :: b) = some (a, b) := by
  induction a with
  | nil => simp [splitFirstSlash]
  | cons c cs ih =>
      have hc : c ≠ '/' := fun hh => h (hh ▸ List.mem_cons_self c cs)
      have hcs : '/' ∉ cs := fun hh => h (List.mem_cons_of_mem c hh)
      simp [splitFirstSlash, hc, ih hcs]

theorem splitFirstSlash_sound (l a b : List Char)
    (h : splitFirstSlash l = some (a, b)) : l = a ++ '/' :: b ∧ '/' ∉ a := by
  induction l generalizing a b with
  | nil => simp [splitFirstSlash] at h
  | cons c cs ih =>
      by_cases hc : c = '/'
      · subst hc
        simp [splitFirstSlash] at h
        obtain ⟨ha, hb⟩ := h
        subst ha
        subst hb
        simp
      · simp only [splitFirstSlash, if_neg hc] at h
        cases hsp : splitFirstSlash cs with
        | none => rw [hsp] at h; simp at h
        | some pr =>
            obtain ⟨p1, p2⟩ := pr
            rw [hsp] at h
            simp at h
            obtain ⟨ha, hb⟩ := h
            obtain ⟨hl, hn⟩ := ih p1 p2 hsp
            subst hb
            constructor
            · rw [← ha, hl]
              simp
            · rw [← ha]
              intro hmem
              rcases List.mem_cons.mp hmem with hh | hh
              · exact hc hh.symm
              · exact hn hh

theorem validPathMatch_sound (p op id : String)
    (h : validPathMatch p = some (op, id)) :
    (p = "/" ∧ op = "" ∧ id = "") ∨
    ((op = "view" ∨ op = "edit" ∨ op = "save" ∨ op = "delete") ∧
      id.data ≠ [] ∧ isAlnumStr id = true ∧ p = "/" ++ op ++ "/" ++ id) := by
  unfold validPathMatch at h
  split at h
  · rename_i rest h1
    split at h
    · rename_i hrest
      subst hrest
      injection h with hpair
      injection hpair with hop hid
      left
      refine ⟨?_, hop.symm, hid.symm⟩
      have hd := (splitFirstSlash_sound _ _ _ h1).1
      exact String.ext (by simpa using hd)
    · rename_i hrest
      split at h
      · rename_i opCs idCs h2
        simp only at h
        split at h
        · rename_i hcond
          simp only [Bool.and_eq_true, Bool.or_eq_true, decide_eq_true_eq] at hcond
          injection h with hpair
          injection hpair with hop hid
          right
          refine ⟨?_, ?_, ?_, ?_⟩
          · rw [← hop]
            tauto
          · rw [← hid]
            exact hcond.1.2
          · rw [← hid]
            unfold isAlnumStr
            exact hcond.2
          · have hd1 := (splitFirstSlash_sound _ _ _ h1).1
            have hd2 := (splitFirstSlash_sound _ _ _ h2).1
            apply String.ext
            rw [hd1, hd2, ← hop, ← hid]
            simp [String.data_append]
        · exact Option.noConfusion h
      · exact Option.noConfusion h
  · exact Option.noConfusion h

theorem validPathMatch_complete (op id : String)
    (hop : op = "view" ∨ op = "edit" ∨ op = "save" ∨ op = "delete")
    (hid : id.data ≠ []) (ha : isAlnumStr id = true) :
    validPathMatch ("/" ++ op ++ "/" ++ id) = some (op, id) := by
  have hnoslash : ('/' : Char) ∉ op.data := by
    rcases hop with h | h | h | h <;> subst h <;> decide
  have hsp1 : splitFirstSlash ("/" ++ op ++ "/" ++ id).data
      = some ([], op.data ++ '/' :: id.data) := by
    have hdata : ("/" ++ op ++ "/" ++ id).data = '/' :: (op.data ++ '/' :: id.data) := by
      simp [String.data_append]
    rw [hdata]
    simp [splitFirstSlash]
  unfold validPathMatch
  rw [hsp1]
  have hrest : op.data ++ '/' :: id.data ≠ [] := by
    intro hc
    exact absurd (congrArg List.length hc) (by simp)
  simp only [hrest, if_false, splitFirstSlash_append _ _ hnoslash]
  have hcond1 : ((⟨op.data⟩ : String) = "view" ∨ (⟨op.data⟩ : String) = "edit" ∨
      (⟨op.data⟩ : String) = "save" ∨ (⟨op.data⟩ : String) = "delete") := by
    rcases hop with h | h | h | h <;> rw [h] <;> tauto
  have hall : id.data.all isAlnumGo = true := by simpa [isAlnumStr] using ha
  simp [hid, hall, hcond1]
  tauto

/-! Claim theorems. -/

/-- Claim C1: for every title matching `[a-zA-Z0-9]+` and every byte body
`b`, `save(t,b)` followed by `load(t)` returns body `b` exactly, on every
starting filesystem free of permission anomalies — including when the
storage root directory did not exist before the save, since the save
creates it (`env ∈ fs1.dirs` afterwards). -/
theorem save_load_roundtrip (env t : String) (b : List Nat) (fs : FS)
    (ht : isAlnumStr t = true ∧ t.data ≠ []) (hd : fs.denied = []) :
    ∃ fs1, pageModel.save env { Title := t, Body := b } fs = .ok fs1 ∧
      loadPage env t fs1 = .ok { Title := t, Body := b } ∧ env ∈ fs1.dirs := by
  have hdenied1 : (statMkdirRoot fs env).denied = [] := by
    unfold statMkdirRoot
    split <;> simpa using hd
  refine ⟨{ statMkdirRoot fs env with
      files := (env ++ "/" ++ t ++ ".txt", b) ::
        (statMkdirRoot fs env).files.filter
          (fun kv => kv.1 ≠ (env ++ "/" ++ t ++ ".txt")) }, ?_, ?_, ?_⟩
  · simp [pageModel.save, writeFile, hdenied1]
  · simp [loadPage, readFile, assocLookup_cons_self, hdenied1]
  · unfold statMkdirRoot
    split
    · rename_i hmem
      exact hmem
    · simp

/-- Witness for C1 at a concrete title, body and empty filesystem. -/
theorem save_load_roundtrip_witness :
    (isAlnumStr "Page1" = true ∧ ("Page1" : String).data ≠ []) ∧
    ∃ fs1, pageModel.save "data" { Title := "Page1", Body := [104, 105] } ⟨[], [], []⟩ = .ok fs1 ∧
      loadPage "data" "Page1" fs1 = .ok { Title := "Page1", Body := [104, 105] } ∧
      "data" ∈ fs1.dirs :=
  ⟨⟨by decide, by decide⟩,
    save_load_roundtrip "data" "Page1" [104, 105] ⟨[], [], []⟩ ⟨by decide, by decide⟩ rfl⟩

theorem statMkdirRoot_denied (fs : FS) (env : String) :
    (statMkdirRoot fs env).denied = fs.denied := by
  unfold statMkdirRoot
  split <;> rfl

theorem statMkdirRoot_mem_dirs (fs : FS) (env : String) :
    env ∈ (statMkdirRoot fs env).dirs := by
  unfold statMkdirRoot
  split
  · assumption
  · exact List.mem_cons_self _ _

/-- Claim C9: save, delete and load all act at the one deterministic path
`storagePath env title` = `<storage-root>/<title>.txt` derived from the
title, and that mapping is injective on titles: two titles sharing a path
are byte-identical. -/
theorem storage_path_deterministic_injective :
    (∀ env t₁ t₂ : String, storagePath env t₁ = storagePath env t₂ → t₁ = t₂) ∧
    (∀ (env : String) (p : pageModel) (fs : FS),
      pageModel.save env p fs =
        writeFile (statMkdirRoot fs env) (storagePath env p.Title) p.Body) ∧
    (∀ (env : String) (p : pageModel) (fs : FS),
      pageModel.delete env p fs =
        removeFile (statMkdirRoot fs env) (storagePath env p.Title)) ∧
    (∀ (env t : String) (fs : FS),
      loadPage env t fs =
        Except.map (fun b => { Title := t, Body := b }) (readFile fs (storagePath env t))) := by
  refine ⟨storagePath_inj, fun env p fs => rfl, fun env p fs => rfl, fun env t fs => ?_⟩
  unfold loadPage storagePath
  cases hr : readFile fs (env ++ "/" ++ t ++ ".txt") <;> simp [hr, Except.map]

/-- Witness for C9: injectivity applied at a concrete pair of equal paths. -/
theorem storage_path_deterministic_injective_witness :
    storagePath "data" "Alpha" = storagePath "data" "Alpha" ∧ ("Alpha" : String) = "Alpha" :=
  ⟨rfl, storage_path_deterministic_injective.1 "data" "Alpha" "Alpha" rfl⟩

/-- Claim C4: a view request for a title with no page file (and no
permission anomaly at its path) responds with a 302 redirect to the edit
path of the same title, and in particular not with a 500. -/
theorem view_missing_redirects (tpls : List (String × GoTemplate)) (env t : String)
    (r : Request) (fs : FS)
    (hmiss : assocLookup fs.files (storagePath env t) = none)
    (hden : storagePath env t ∉ fs.denied) :
    viewHandler tpls env RW.fresh r t fs = (httpRedirect RW.fresh ("/edit/" ++ t) 302, fs) ∧
    (viewHandler tpls env RW.fresh r t fs).1.status = some 302 ∧
    (viewHandler tpls env RW.fresh r t fs).1.status ≠ some 500 := by
  unfold storagePath at hmiss hden
  have hread : readFile fs (env ++ "/" ++ t ++ ".txt") = .error FsError.notFound := by
    unfold readFile
    rw [if_neg hden, hmiss]
  have hload : loadPage env t fs = .error FsError.notFound := by
    simp [loadPage, hread]
  refine ⟨?_, ?_, ?_⟩ <;>
    simp [viewHandler, hload, httpRedirect, RW.writeHeader, RW.fresh]

/-- Witness for C4 at a concrete title over the empty filesystem. -/
theorem view_missing_redirects_witness :
    (assocLookup (FS.mk [] [] []).files (storagePath "data" "abc") = none ∧
      storagePath "data" "abc" ∉ (FS.mk [] [] []).denied) ∧
    viewHandler [] "data" RW.fresh ⟨"GET", "/view/abc", [], []⟩ "abc" ⟨[], [], []⟩ =
      (httpRedirect RW.fresh ("/edit/" ++ "abc") 302, ⟨[], [], []⟩) :=
  ⟨⟨by decide, by decide⟩,
    (view_missing_redirects [] "data" "abc" ⟨"GET", "/view/abc", [], []⟩ ⟨[], [], []⟩
      (by decide) (by decide)).1⟩

theorem statMkdirRoot_files (fs : FS) (env : String) :
    (statMkdirRoot fs env).files = fs.files := by
  unfold statMkdirRoot
  split <;> rfl

theorem statMkdirRoot_of_mem (fs : FS) (env : String) (h : env ∈ fs.dirs) :
    statMkdirRoot fs env = fs := by
  unfold statMkdirRoot
  rw [if_pos h]

theorem save_eq (env : String) (p : pageModel) (fs : FS) (hd : fs.denied = []) :
    pageModel.save env p fs = .ok (FS.mk (statMkdirRoot fs env).dirs
      ((env ++ "/" ++ p.Title ++ ".txt", p.Body) ::
        (statMkdirRoot fs env).files.filter
          (fun kv => kv.1 ≠ env ++ "/" ++ p.Title ++ ".txt"))
      fs.denied) := by
  simp [pageModel.save, writeFile, statMkdirRoot_denied, hd]

theorem delete_eq (env : String) (p : pageModel) (fs : FS) (bb : List Nat)
    (hd : fs.denied = []) (hmem : env ∈ fs.dirs)
    (hfile : assocLookup fs.files (env ++ "/" ++ p.Title ++ ".txt") = some bb) :
    pageModel.delete env p fs = .ok (FS.mk fs.dirs
      (fs.files.filter (fun kv => kv.1 ≠ env ++ "/" ++ p.Title ++ ".txt"))
      fs.denied) := by
  show removeFile (statMkdirRoot fs env) (env ++ "/" ++ p.Title ++ ".txt") = _
  rw [statMkdirRoot_of_mem fs env hmem]
  unfold removeFile
  rw [hd, hfile]
  simp

theorem loadPage_none (env t : String) (fs : FS) (hd : fs.denied = [])
    (hnone : assocLookup fs.files (env ++ "/" ++ t ++ ".txt") = none) :
    loadPage env t fs = .error FsError.notFound := by
  have hread : readFile fs (env ++ "/" ++ t ++ ".txt") = .error FsError.notFound := by
    unfold readFile
    rw [hd, hnone]
    simp
  simp [loadPage, hread]

/-- Claim C6: on a filesystem free of permission anomalies, `delete(t)`
performed after `save(t,b)` makes a subsequent `load(t)` fail with
NotFound. -/
theorem delete_after_save_load_notFound (env t : String) (b : List Nat) (fs : FS)
    (hd : fs.denied = []) :
    ∃ fs1 fs2, pageModel.save env { Title := t, Body := b } fs = .ok fs1 ∧
      pageModel.delete env { Title := t, Body := b } fs1 = .ok fs2 ∧
      loadPage env t fs2 = .error FsError.notFound := by
  refine ⟨_, _, save_eq env { Title := t, Body := b } fs hd, delete_eq env _ _ b hd ?_ ?_, ?_⟩
  · exact statMkdirRoot_mem_dirs fs env
  · exact assocLookup_cons_self _ _ _
  · exact loadPage_none env t _ hd (assocLookup_filter_self _ _)

/-- Witness for C6 at a concrete title and body over the empty filesystem. -/
theorem delete_after_save_load_notFound_witness :
    (FS.mk [] [] []).denied = [] ∧
    ∃ fs1 fs2, pageModel.save "data" { Title := "T9", Body := [0, 255] } ⟨[], [], []⟩ = .ok fs1 ∧
      pageModel.delete "data" { Title := "T9", Body := [0, 255] } fs1 = .ok fs2 ∧
      loadPage "data" "T9" fs2 = .error FsError.notFound :=
  ⟨rfl, delete_after_save_load_notFound "data" "T9" [0, 255] ⟨[], [], []⟩ rfl⟩

theorem trim_storagePath (env t : String) :
    trimSuffix (trimLeading (env ++ "/" ++ t ++ ".txt") (env ++ "/")) ".txt" = t := by
  have h1 : env ++ "/" ++ t ++ ".txt" = (env ++ "/") ++ (t ++ ".txt") := by
    rw [String.append_assoc]
  rw [h1, trimLeading_append]
  exact trimSuffix_append t ".txt"

/-- Claim C7: the title listing returns exactly the stored titles with the
extension stripped.  When the storage root holds no files — in particular
when it does not exist — the result is the empty collection, not an error;
and after saving titles a, b, c and deleting b it is exactly a collection
with elements a and c, in some order. -/
theorem list_titles_spec (env a b c : String) (ba bb bc : List Nat) (fs : FS)
    (hfs : fs.files = []) (hd : fs.denied = [])
    (hal : isAlnumStr a = true) (hbl : isAlnumStr b = true) (hcl : isAlnumStr c = true)
    (hab : a ≠ b) (hbc : b ≠ c) (hac : a ≠ c) :
    listTitles fs env = .ok [] ∧
    ∃ fs1 fs2 fs3 fs4,
      pageModel.save env { Title := a, Body := ba } fs = .ok fs1 ∧
      pageModel.save env { Title := b, Body := bb } fs1 = .ok fs2 ∧
      pageModel.save env { Title := c, Body := bc } fs2 = .ok fs3 ∧
      pageModel.delete env { Title := b, Body := bb } fs3 = .ok fs4 ∧
      ∃ l, listTitles fs4 env = .ok l ∧ l.Perm [a, c] := by
  have hPab : (env ++ "/" ++ a ++ ".txt") ≠ (env ++ "/" ++ b ++ ".txt") :=
    fun h => hab (storagePath_inj env a b h)
  have hPbc : (env ++ "/" ++ b ++ ".txt") ≠ (env ++ "/" ++ c ++ ".txt") :=
    fun h => hbc (storagePath_inj env b c h)
  have hPac : (env ++ "/" ++ a ++ ".txt") ≠ (env ++ "/" ++ c ++ ".txt") :=
    fun h => hac (storagePath_inj env a c h)
  have hPcb : (env ++ "/" ++ c ++ ".txt") ≠ (env ++ "/" ++ b ++ ".txt") :=
    fun h => hbc ((storagePath_inj env c b h).symm)
  have hga : globMatchTxt env (env ++ "/" ++ a ++ ".txt") = true :=
    globMatchTxt_storagePath env a hal
  have hgc : globMatchTxt env (env ++ "/" ++ c ++ ".txt") = true :=
    globMatchTxt_storagePath env c hcl
  have hta : trimSuffix (trimLeading (env ++ "/" ++ a ++ ".txt") (env ++ "/")) ".txt" = a :=
    trim_storagePath env a
  have htc : trimSuffix (trimLeading (env ++ "/" ++ c ++ ".txt") (env ++ "/")) ".txt" = c :=
    trim_storagePath env c
  constructor
  · simp [listTitles, filepathGlob, hfs]
  refine ⟨_, _, _, _, save_eq env { Title := a, Body := ba } fs hd,
    save_eq env { Title := b, Body := bb } _ hd,
    save_eq env { Title := c, Body := bc } _ hd,
    delete_eq env { Title := b, Body := bb } _ bb hd ?_ ?_, ?_⟩
  · exact statMkdirRoot_mem_dirs _ env
  · simp only [assocLookup]
    rw [if_neg hPcb, assocLookup_filter_other _ _ _ hPbc, statMkdirRoot_files]
    exact assocLookup_cons_self _ _ _
  · refine ⟨[c, a], ?_, ?_⟩
    · simp [listTitles, filepathGlob, hfs, statMkdirRoot_files, List.filter_cons,
        hPab, hPbc, hPac, hPcb, hga, hgc, hta, htc]
    · exact List.Perm.swap a c []

/-- Witness for C7 at three concrete distinct titles over the empty
filesystem. -/
theorem list_titles_spec_witness :
    ((FS.mk [] [] []).files = [] ∧ (FS.mk [] [] []).denied = [] ∧
      isAlnumStr "aa" = true ∧ isAlnumStr "bb" = true ∧ isAlnumStr "cc" = true ∧
      ("aa" : String) ≠ "bb" ∧ ("bb" : String) ≠ "cc" ∧ ("aa" : String) ≠ "cc") ∧
    (listTitles ⟨[], [], []⟩ "store" = .ok [] ∧
    ∃ fs1 fs2 fs3 fs4,
      pageModel.save "store" { Title := "aa", Body := [1] } ⟨[], [], []⟩ = .ok fs1 ∧
      pageModel.save "store" { Title := "bb", Body := [2] } fs1 = .ok fs2 ∧
      pageModel.save "store" { Title := "cc", Body := [3] } fs2 = .ok fs3 ∧
      pageModel.delete "store" { Title := "bb", Body := [2] } fs3 = .ok fs4 ∧
      ∃ l, listTitles fs4 "store" = .ok l ∧ l.Perm ["aa", "cc"]) :=
  ⟨⟨rfl, rfl, by decide, by decide, by decide, by decide, by decide, by decide⟩,
    list_titles_spec "store" "aa" "bb" "cc" [1] [2] [3] ⟨[], [], []⟩ rfl rfl
      (by decide) (by decide) (by decide) (by decide) (by decide) (by decide)⟩

/-- Claim C2: a wrapped handler body runs only when the request path is
exactly `/` or exactly `/<op>/<identifier>` with op among view, edit, save,
delete and a nonempty alphanumeric identifier (the match anchored at both
ends); every other path — including `/view/../../etc/passwd` and
`/view/foo bar` — produces the 404 response and leaves the filesystem (the
Repository) untouched. -/
theorem route_grammar_404 :
    (∀ (tpls : List (String × GoTemplate)) (env : String) (r : Request) (fs : FS),
      validPathMatch r.path = none →
        serveMux tpls env r fs = (httpNotFound RW.fresh, fs)) ∧
    (∀ p op id, validPathMatch p = some (op, id) →
      (p = "/" ∧ id = "") ∨
      ((op = "view" ∨ op = "edit" ∨ op = "save" ∨ op = "delete") ∧
        id.data ≠ [] ∧ isAlnumStr id = true ∧ p = "/" ++ op ++ "/" ++ id)) ∧
    (∀ op id : String, (op = "view" ∨ op = "edit" ∨ op = "save" ∨ op = "delete") →
      id.data ≠ [] → isAlnumStr id = true →
      validPathMatch ("/" ++ op ++ "/" ++ id) = some (op, id)) := by
  refine ⟨?_, ?_, validPathMatch_complete⟩
  · intro tpls env r fs hnone
    unfold serveMux
    split_ifs <;> simp [makeHandler, hnone]
  · intro p op id h
    rcases validPathMatch_sound p op id h with ⟨hp, _, hid⟩ | hrest
    · exact Or.inl ⟨hp, hid⟩
    · exact Or.inr hrest

/-- Witness for C2 at the two concrete hostile paths named by the spec. -/
theorem route_grammar_404_witness :
    (validPathMatch "/view/../../etc/passwd" = none ∧
      serveMux [] "store" ⟨"GET", "/view/../../etc/passwd", [], []⟩ ⟨[], [], []⟩ =
        (httpNotFound RW.fresh, ⟨[], [], []⟩)) ∧
    (validPathMatch "/view/foo bar" = none ∧
      serveMux [] "store" ⟨"GET", "/view/foo bar", [], []⟩ ⟨[], [], []⟩ =
        (httpNotFound RW.fresh, ⟨[], [], []⟩)) :=
  ⟨⟨by decide,
    route_grammar_404.1 [] "store" ⟨"GET", "/view/../../etc/passwd", [], []⟩ ⟨[], [], []⟩
      (by decide)⟩,
  ⟨by decide,
    route_grammar_404.1 [] "store" ⟨"GET", "/view/foo bar", [], []⟩ ⟨[], [], []⟩
      (by decide)⟩⟩

/-- Claim C3: the file a save request writes derives from the request form
field `title`, not from the URL identifier validated by the route grammar:
the handler's result does not depend on the URL identifier at all, and the
form title `../evil` — which contains a path separator — makes the write
land at a path outside the alphanumeric title namespace. -/
theorem save_uses_form_title (tpls : List (String × GoTemplate)) (env : String)
    (r : Request) (fs : FS) :
    (∀ p₁ p₂ : String,
      saveHandler tpls env RW.fresh r p₁ fs = saveHandler tpls env RW.fresh r p₂ fs) ∧
    (fs.denied = [] → r.method = "POST" →
      r.formBody = [("title", "../evil"), ("body", "x")] →
      ∃ fs1, saveHandler tpls env RW.fresh r "Good" fs =
          (httpRedirect RW.fresh ("/view/" ++ "../evil") 302, fs1) ∧
        assocLookup fs1.files (env ++ "/" ++ "../evil" ++ ".txt") = some (strBytes "x") ∧
        ∀ t : String, isAlnumStr t = true →
          (env ++ "/" ++ "../evil" ++ ".txt") ≠ (env ++ "/" ++ t ++ ".txt")) := by
  refine ⟨fun p₁ p₂ => rfl, fun hd hm hform => ?_⟩
  have htitle : r.formValue "title" = "../evil" := by
    simp [Request.formValue, hm, hform, assocLookup]
  have hbody : r.formValue "body" = "x" := by
    simp [Request.formValue, hm, hform, assocLookup]
  have hsave := save_eq env { Title := "../evil", Body := strBytes "x" } fs hd
  refine ⟨FS.mk (statMkdirRoot fs env).dirs
      ((env ++ "/" ++ "../evil" ++ ".txt", strBytes "x") ::
        (statMkdirRoot fs env).files.filter
          (fun kv => kv.1 ≠ env ++ "/" ++ "../evil" ++ ".txt"))
      fs.denied, ?_, ?_, ?_⟩
  · simp only [saveHandler, htitle, hbody]
    rw [hsave]
  · exact assocLookup_cons_self _ _ _
  · intro t ht heq
    have hts := storagePath_inj env "../evil" t heq
    rw [← hts] at ht
    exact absurd ht (by decide)

/-- Witness for C3 at a concrete save request carrying the escaping form
title over the empty filesystem. -/
theorem save_uses_form_title_witness :
    ((FS.mk [] [] []).denied = [] ∧
      (Request.mk "POST" "/save/Good" [] [("title", "../evil"), ("body", "x")]).method = "POST") ∧
    ∃ fs1, saveHandler [] "store" RW.fresh
        ⟨"POST", "/save/Good", [], [("title", "../evil"), ("body", "x")]⟩ "Good" ⟨[], [], []⟩ =
        (httpRedirect RW.fresh ("/view/" ++ "../evil") 302, fs1) ∧
      assocLookup fs1.files ("store" ++ "/" ++ "../evil" ++ ".txt") = some (strBytes "x") ∧
      ∀ t : String, isAlnumStr t = true →
        ("store" ++ "/" ++ "../evil" ++ ".txt") ≠ ("store" ++ "/" ++ t ++ ".txt") :=
  ⟨⟨rfl, rfl⟩,
    (save_uses_form_title [] "store"
      ⟨"POST", "/save/Good", [], [("title", "../evil"), ("body", "x")]⟩ ⟨[], [], []⟩).2
      rfl rfl rfl⟩

/-- Counterexample to C5 as stated: at a filesystem where the page file
path fails with a permission error — a StorageError, not NotFound — the
view handler still responds with a 302 redirect to the edit path rather
than with a 500. -/
theorem view_storage_error_counterexample :
    loadPage "store" "aa" ⟨["store"], [("store/aa.txt", [104])], ["store/aa.txt"]⟩ =
      .error FsError.storageError ∧
    viewHandler [] "store" RW.fresh ⟨"GET", "/view/aa", [], []⟩ "aa"
        ⟨["store"], [("store/aa.txt", [104])], ["store/aa.txt"]⟩ =
      (httpRedirect RW.fresh ("/edit/" ++ "aa") 302,
        ⟨["store"], [("store/aa.txt", [104])], ["store/aa.txt"]⟩) ∧
    (viewHandler [] "store" RW.fresh ⟨"GET", "/view/aa", [], []⟩ "aa"
        ⟨["store"], [("store/aa.txt", [104])], ["store/aa.txt"]⟩).1.status ≠ some 500 := by
  refine ⟨rfl, rfl, by decide⟩

/-- Amended C5: storage errors in the delete handler (and analogously in
index and save) propagate immediately as a 500 carrying the plain error
text, but during view EVERY load failure — StorageError as well as
NotFound — is converted into a 302 redirect to the edit path; a
StorageError during a view load therefore yields a redirect, not a 500. -/
theorem error_propagation_amended (tpls : List (String × GoTemplate)) (env t : String)
    (r : Request) (fs : FS) (hden : (env ++ "/" ++ t ++ ".txt") ∈ fs.denied) :
    viewHandler tpls env RW.fresh r t fs = (httpRedirect RW.fresh ("/edit/" ++ t) 302, fs) ∧
    deleteHandler tpls env RW.fresh r t fs =
      (httpError RW.fresh FsError.storageError.message 500, fs) ∧
    (httpError RW.fresh FsError.storageError.message 500).status = some 500 ∧
    (httpError RW.fresh FsError.storageError.message 500).body =
      FsError.storageError.message ++ "\n" := by
  have hread : readFile fs (env ++ "/" ++ t ++ ".txt") = .error FsError.storageError := by
    unfold readFile
    rw [if_pos hden]
  have hload : loadPage env t fs = .error FsError.storageError := by
    simp [loadPage, hread]
  refine ⟨?_, ?_, rfl, ?_⟩
  · simp [viewHandler, hload]
  · simp [deleteHandler, hload]
  · simp [httpError, RW.writeHeader, RW.write, RW.fresh]

/-- Witness for the amended C5 at a concrete denied path. -/
theorem error_propagation_amended_witness :
    ("store" ++ "/" ++ "bb" ++ ".txt") ∈
      (FS.mk ["store"] [("store/bb.txt", [1])] ["store/bb.txt"]).denied ∧
    viewHandler [] "store" RW.fresh ⟨"GET", "/view/bb", [], []⟩ "bb"
        ⟨["store"], [("store/bb.txt", [1])], ["store/bb.txt"]⟩ =
      (httpRedirect RW.fresh ("/edit/" ++ "bb") 302,
        ⟨["store"], [("store/bb.txt", [1])], ["store/bb.txt"]⟩) :=
  ⟨by decide,
    (error_propagation_amended [] "store" "bb" ⟨"GET", "/view/bb", [], []⟩
      ⟨["store"], [("store/bb.txt", [1])], ["store/bb.txt"]⟩ (by decide)).1⟩

/-- Claim C8: the named content template is looked up and executed into an
intermediate buffer before anything reaches the response: a missing base or
content template yields a 500 whose body is exactly the fixed error line,
and a content-template execution failure yields a 500 whose body is exactly
the error text — in both cases no partial template output ever precedes the
error in the response body. -/
theorem render_buffered_errors (tpls : List (String × GoTemplate)) (pd : pageData)
    (tmpl : String) :
    ((assocLookup tpls "base.html" = none ∨ assocLookup tpls (tmpl ++ ".html") = none) →
      renderTemplate tpls RW.fresh pd tmpl =
        { status := some 500, body := "Not found base or content template" ++ "\n",
          location := none }) ∧
    (∀ (bt ct : GoTemplate) (e : String), assocLookup tpls "base.html" = some bt →
      assocLookup tpls (tmpl ++ ".html") = some ct →
      (ct.run pd.Content.payload).2 = some e →
      renderTemplate tpls RW.fresh pd tmpl =
        { status := some 500, body := e ++ "\n", location := none }) := by
  constructor
  · intro hmiss
    cases h1 : assocLookup tpls "base.html" with
    | none =>
        cases h2 : assocLookup tpls (tmpl ++ ".html") <;>
          simp [renderTemplate, h1, h2, httpError, RW.writeHeader, RW.write, RW.fresh]
    | some bt =>
        cases h2 : assocLookup tpls (tmpl ++ ".html") with
        | none => simp [renderTemplate, h1, h2, httpError, RW.writeHeader, RW.write, RW.fresh]
        | some ct =>
            rcases hmiss with hm | hm
            · rw [h1] at hm
              exact Option.noConfusion hm
            · rw [h2] at hm
              exact Option.noConfusion hm
  · intro bt ct e h1 h2 herr
    rcases hrun : ct.run pd.Content.payload with ⟨out, err⟩
    rw [hrun] at herr
    simp only at herr
    subst herr
    simp [renderTemplate, h1, h2, hrun, httpError, RW.writeHeader, RW.write, RW.fresh]

/-- Witness for C8: a concrete template set whose content template always
fails, and the missing-template case over the empty template set. -/
theorem render_buffered_errors_witness :
    (assocLookup ([] : List (String × GoTemplate)) "base.html" = none ∨
      assocLookup ([] : List (String × GoTemplate)) ("view" ++ ".html") = none) ∧
    renderTemplate [] RW.fresh
        { Title := "View aa", Content := .page { Title := "aa", Body := [] } } "view" =
      { status := some 500, body := "Not found base or content template" ++ "\n",
        location := none } ∧
    renderTemplate
        [("base.html", ⟨fun _ => ("layout", none)⟩),
          ("view.html", ⟨fun _ => ("", some "boom")⟩)] RW.fresh
        { Title := "View aa", Content := .page { Title := "aa", Body := [] } } "view" =
      { status := some 500, body := "boom" ++ "\n", location := none } :=
  ⟨Or.inl rfl,
    (render_buffered_errors []
      { Title := "View aa", Content := .page { Title := "aa", Body := [] } } "view").1
      (Or.inl rfl),
    (render_buffered_errors
      [("base.html", ⟨fun _ => ("layout", none)⟩),
        ("view.html", ⟨fun _ => ("", some "boom")⟩)]
      { Title := "View aa", Content := .page { Title := "aa", Body := [] } } "view").2
      ⟨fun _ => ("layout", none)⟩ ⟨fun _ => ("", some "boom")⟩ "boom" rfl rfl rfl⟩

/-- Counterexample to C10 as stated: two save requests that differ only in
their HTTP method (POST versus GET, same path, same query, same body) are
handled differently, because `FormValue` parses the request body's form
fields only for POST/PUT/PATCH — the GET save stores under the empty title
and redirects elsewhere. -/
theorem method_dependent_save_counterexample :
    (Request.mk "POST" "/save/x" [] [("title", "t"), ("body", "h")]).path =
      (Request.mk "GET" "/save/x" [] [("title", "t"), ("body", "h")]).path ∧
    (Request.mk "POST" "/save/x" [] [("title", "t"), ("body", "h")]).formBody =
      (Request.mk "GET" "/save/x" [] [("title", "t"), ("body", "h")]).formBody ∧
    serveMux [] "store" ⟨"POST", "/save/x", [], [("title", "t"), ("body", "h")]⟩ ⟨[], [], []⟩ ≠
      serveMux [] "store" ⟨"GET", "/save/x", [], [("title", "t"), ("body", "h")]⟩ ⟨[], [], []⟩ :=
  ⟨rfl, rfl, by decide⟩

/-- Amended C10: the dispatcher and the handlers never inspect the HTTP
method themselves; on every route other than `/save/` two requests
differing only in their method behave identically — in particular a GET to
`/delete/<id>` performs the delete exactly as a POST would — and a save is
also performed for any method with no method check, but its form fields are
parsed method-dependently inside FormValue, so only save requests carrying
an empty request body are guaranteed method-independent. -/
theorem method_independent_amended (tpls : List (String × GoTemplate)) (env : String)
    (fs : FS) (m₁ m₂ p : String) (q fb : List (String × String)) :
    (¬ ("/save/".data.isPrefixOf p.data = true) →
      serveMux tpls env ⟨m₁, p, q, fb⟩ fs = serveMux tpls env ⟨m₂, p, q, fb⟩ fs) ∧
    (fb = [] →
      serveMux tpls env ⟨m₁, p, q, fb⟩ fs = serveMux tpls env ⟨m₂, p, q, fb⟩ fs) := by
  have hfv : ∀ (m : String) (key : String),
      Request.formValue ⟨m, p, q, []⟩ key = (assocLookup q key).getD "" := by
    intro m key
    unfold Request.formValue
    split_ifs <;> rfl
  constructor
  · intro hns
    unfold serveMux
    dsimp only
    split_ifs <;>
      (cases hv : validPathMatch p <;>
        simp [makeHandler, hv, viewHandler, editHandler, deleteHandler, indexHandler])
  · intro hfb
    subst hfb
    unfold serveMux
    dsimp only
    split_ifs <;>
      (cases hv : validPathMatch p <;>
        simp [makeHandler, hv, viewHandler, editHandler, saveHandler, deleteHandler,
          indexHandler, hfv])

/-- Witness for the amended C10 at a concrete delete route. -/
theorem method_independent_amended_witness :
    ¬ ("/save/".data.isPrefixOf "/delete/x".data = true) ∧
    serveMux [] "store" ⟨"GET", "/delete/x", [], []⟩ ⟨[], [], []⟩ =
      serveMux [] "store" ⟨"POST", "/delete/x", [], []⟩ ⟨[], [], []⟩ :=
  ⟨by decide,
    (method_independent_amended [] "store" ⟨[], [], []⟩ "GET" "POST" "/delete/x" [] []).1
      (by decide)⟩
